import Mathlib

/-!
Shallow embedding of the bitcoin-boi read API: the versioned transaction
router (list / range / by-time / search endpoints), the legacy by-hash
endpoint, and the browser client's data-access layer
(`TransactionService`).  Machine numbers are modelled as `Nat`/`Int`/`ℚ`
(JavaScript numeric operations on the values involved are exact), fallible
steps return `Option`, and each HTTP handler is a pure function from its
(already parsed or raw) inputs and the database table to a `Response`
value recording status, headers, JSON body and how many SQL queries were
issued.
-/

namespace BitcoinBoi

/-- JSON values as produced by `res.json`; numbers are rationals since the
JavaScript numbers appearing here (counts, pages, `offset / limit + 1`) are
exact rationals. -/
inductive Json where
| num : ℚ → Json
| str : String → Json
| arr : List Json → Json
| obj : List (String × Json) → Json

/-- Association lookup on the key/value pairs of a JSON object (first
binding wins, as in a JavaScript object literal). -/
def lookupKV : List (String × Json) → String → Option Json
| [], _ => none
| (k', v) :: rest, k => if k' = k then some v else lookupKV rest k

/-- Field access on a JSON object; `none` on non-objects and absent keys. -/
def getField : Json → String → Option Json
| Json.obj kvs, k => lookupKV kvs k
| _, _ => none

/-- A row of the `transactions` table (§3 of the spec). -/
structure Transaction where
  hash : String
  block_id : Nat
  time : Nat
  output_total : ℚ
  output_total_usd : ℚ
  fee : ℚ
  size : Nat
deriving DecidableEq

/-- The JSON serialization of one row, as the driver hands it to `res.json`. -/
def txJson (t : Transaction) : Json :=
  Json.obj [("hash", Json.str t.hash), ("block_id", Json.num t.block_id),
    ("time", Json.num t.time), ("output_total", Json.num t.output_total),
    ("output_total_usd", Json.num t.output_total_usd),
    ("fee", Json.num t.fee), ("size", Json.num t.size)]

/-- The comparison realised by `ORDER BY time DESC`: an earlier row has the
larger (or equal) timestamp. -/
def timeDesc (a b : Transaction) : Prop := b.time ≤ a.time

instance : DecidableRel timeDesc := fun a b => Nat.decLe b.time a.time

instance : IsTotal Transaction timeDesc :=
  ⟨fun a b => le_total b.time a.time⟩

instance : IsTrans Transaction timeDesc :=
  ⟨fun _ _ _ h1 h2 => le_trans h2 h1⟩

/-- Evaluation of `ORDER BY time DESC` on a result set. -/
def orderByTimeDesc (l : List Transaction) : List Transaction :=
  List.insertionSort timeDesc l

/-- The outcome of one HTTP request: status code, response headers, JSON
body, and the number of SQL queries the handler issued on the way. -/
structure Response where
  status : Nat
  headers : List (String × Json)
  body : Json
  queriesIssued : Nat

/-- Numeric response header, by name. -/
def headerNum (r : Response) (k : String) : Option ℚ :=
  match lookupKV r.headers k with
  | some (Json.num q) => some q
  | _ => none

/-- Top-level body field, by name. -/
def bodyField (r : Response) (k : String) : Option Json := getField r.body k

/-- Top-level numeric body field, by name. -/
def bodyNum (r : Response) (k : String) : Option ℚ :=
  match bodyField r k with
  | some (Json.num q) => some q
  | _ => none

/-- Numeric field of the body's `pagination` block, by name. -/
def paginationNum (r : Response) (k : String) : Option ℚ :=
  match bodyField r "pagination" with
  | some p =>
    match getField p k with
    | some (Json.num q) => some q
    | _ => none
  | none => none

/-- The body's `rows` array, when present. -/
def bodyRows (r : Response) : Option (List Json) :=
  match bodyField r "rows" with
  | some (Json.arr l) => some l
  | _ => none

/-- Number of elements of the body's `rows` array (0 when absent). -/
def bodyRowCount (r : Response) : Nat :=
  ((bodyRows r).map List.length).getD 0

/-- The body's `details` array (validation failures), when present. -/
def detailsOf (r : Response) : Option (List Json) :=
  match bodyField r "details" with
  | some (Json.arr l) => some l
  | _ => none

/-!
Section: GET /api/transactions — the List endpoint

After validation, the handler runs the rows query
`SELECT * FROM transactions ORDER BY time DESC LIMIT $1 OFFSET $2` and the
count query in parallel, computes `totalPages = Math.ceil(totalCount /
limit)`, sets the four `X-*` headers — note `X-Current-Page` is
`offset / limit + 1` with no `Math.floor` — and returns the envelope.
-/

/-- The List handler after its parameters passed validation. -/
def listCore (store : List Transaction) (limit offset : Nat) : Response :=
  let rows := ((orderByTimeDesc store).drop offset).take limit
  let totalCount := store.length
  let totalPages : ℤ := ⌈(totalCount : ℚ) / (limit : ℚ)⌉
  let currentPage : ℤ := ⌊(offset : ℚ) / (limit : ℚ)⌋ + 1
  { status := 200
    headers := [("X-Total-Count", Json.num totalCount),
      ("X-Total-Pages", Json.num totalPages),
      ("X-Current-Page", Json.num ((offset : ℚ) / (limit : ℚ) + 1)),
      ("X-Per-Page", Json.num limit)]
    body := Json.obj [("rows", Json.arr (rows.map txJson)),
      ("totalCount", Json.num totalCount),
      ("pagination", Json.obj [("limit", Json.num limit),
        ("offset", Json.num offset),
        ("currentPage", Json.num currentPage),
        ("totalPages", Json.num totalPages)])]
    queriesIssued := 2 }

/-!
Section: GET /api/transactions/range

`start`/`end` arrive as `YYYY-MM-DD` strings (checked by `isDate()`); the
handler first rejects `new Date(end) < new Date(start)` with a 400 domain
error before touching the pool, then filters on
`time >= $1::date AND time <= ($2::date + interval '1 day - 1 second')`.
-/

/-- A calendar date as parsed from a `YYYY-MM-DD` query parameter. -/
structure CalDate where
  year : Nat
  month : Nat
  day : Nat
deriving DecidableEq

/-- Epoch seconds of a date's midnight.  The time axis is abstract: months
are laid out with 31 slots each, which is strictly monotone and injective
on calendar dates (`month ≤ 12`, `day ≤ 31`), so it preserves exactly the
comparisons `new Date(end) < new Date(start)` and the `::date` casts that
the handler performs. -/
def dateSec (d : CalDate) : Nat :=
  (((d.year * 12 + (d.month - 1)) * 31) + (d.day - 1)) * 86400

/-- One day minus one second, the width of the inclusive range
`[start 00:00:00, end 23:59:59]` added by `interval '1 day - 1 second'`. -/
def daySecMinusOne : Nat := 86399

/-- The SQL row filter of the range queries. -/
def inRange (s e : CalDate) (t : Transaction) : Bool :=
  decide (dateSec s ≤ t.time) && decide (t.time ≤ dateSec e + daySecMinusOne)

/-- The rows actually served by the range endpoint: the in-range rows,
time-descending, paged by `OFFSET`/`LIMIT`. -/
def rangeServedRows (store : List Transaction) (s e : CalDate)
    (limit offset : Nat) : List Transaction :=
  ((orderByTimeDesc (store.filter (inRange s e))).drop offset).take limit

/-- The Range handler after `start`/`end`/`limit`/`offset` passed
validation. -/
def rangeCore (store : List Transaction) (s e : CalDate)
    (limit offset : Nat) : Response :=
  if dateSec e < dateSec s then
    { status := 400
      headers := []
      body := Json.obj [("error", Json.str "Invalid date range"),
        ("message", Json.str "End date cannot be before start date")]
      queriesIssued := 0 }
  else
    let rows := rangeServedRows store s e limit offset
    let totalCount := (store.filter (inRange s e)).length
    let totalPages : ℤ := ⌈(totalCount : ℚ) / (limit : ℚ)⌉
    let currentPage : ℤ := ⌊(offset : ℚ) / (limit : ℚ)⌋ + 1
    { status := 200
      headers := [("X-Total-Count", Json.num totalCount),
        ("X-Total-Pages", Json.num totalPages),
        ("X-Current-Page", Json.num currentPage)]
      body := Json.obj [("rows", Json.arr (rows.map txJson)),
        ("totalCount", Json.num totalCount),
        ("pagination", Json.obj [("limit", Json.num limit),
          ("offset", Json.num offset),
          ("currentPage", Json.num currentPage),
          ("totalPages", Json.num totalPages)])]
      queriesIssued := 2 }

/-!
Section: GET /api/transactions/search

The handler interpolates the raw term into the pattern `%term%` — with no
escaping — and matches it against `hash` with `ILIKE`.  `likeMatch` is the
SQL `LIKE`/`ILIKE` pattern semantics: `%` matches any sequence, `_` any
single character, a backslash escapes the next pattern character, and
(for `ILIKE`) characters compare case-insensitively.
-/

/-- Case-insensitive character comparison (ASCII lowering, which covers
hexadecimal transaction hashes). -/
def charEqCI (a b : Char) : Bool := a.toLower == b.toLower

/-- SQL `ILIKE` pattern matching, structurally recursive on the pattern.
A pattern consisting of a lone trailing backslash matches nothing (the
query executor rejects such patterns). -/
def likeMatch : List Char → List Char → Bool
| [], s => s.isEmpty
| c :: ps, s =>
  if c = '%' then s.tails.any (fun t => likeMatch ps t)
  else if c = '_' then
    match s with
    | [] => false
    | _ :: ss => likeMatch ps ss
  else if c = '\\' then
    match ps with
    | [] => false
    | e :: ps' =>
      match s with
      | [] => false
      | d :: ss => charEqCI e d && likeMatch ps' ss
  else
    match s with
    | [] => false
    | d :: ss => charEqCI c d && likeMatch ps ss
termination_by structural p _ => p

/-- Predicate `isPrefixCI t s`: `t` is a character-wise case-insensitive
prefix of `s`. -/
def isPrefixCI : List Char → List Char → Bool
| [], _ => true
| _ :: _, [] => false
| a :: as, b :: bs => charEqCI a b && isPrefixCI as bs

/-- Predicate `containsCI t h`: `t` occurs in `h` as a case-insensitive
contiguous substring.  This is the claim-side reading of "hash contains term as a
case-insensitive substring". -/
def containsCI : List Char → List Char → Bool
| t, [] => t.isEmpty
| t, c :: h => isPrefixCI t (c :: h) || containsCI t h

/-- The search term is free of the `ILIKE` metacharacters `%`, `_` and the
escape character. -/
def noWildcards (t : List Char) : Bool :=
  t.all fun c => !(c == '%') && !(c == '_') && !(c == '\\')

/-- The rows the search endpoint serves: hashes matching `%term%` under
`ILIKE`, time-descending, first `limit` of them (there is no `OFFSET`). -/
def searchServedRows (store : List Transaction) (term : String)
    (limit : Nat) : List Transaction :=
  (orderByTimeDesc
    (store.filter fun tx =>
      likeMatch ("%" ++ term ++ "%").data tx.hash.data)).take limit

/-- The rows the claim describes: hashes containing the term as a
case-insensitive substring, time-descending, first `limit` of them. -/
def searchClaimRows (store : List Transaction) (term : String)
    (limit : Nat) : List Transaction :=
  (orderByTimeDesc
    (store.filter fun tx => containsCI term.data tx.hash.data)).take limit

/-- The Search handler after `term`/`limit` passed validation.  Its body
has only `rows` and `totalCount` — no `pagination` block. -/
def searchCore (store : List Transaction) (term : String)
    (limit : Nat) : Response :=
  let rows := searchServedRows store term limit
  let totalCount :=
    (store.filter fun tx =>
      likeMatch ("%" ++ term ++ "%").data tx.hash.data).length
  { status := 200
    headers := []
    body := Json.obj [("rows", Json.arr (rows.map txJson)),
      ("totalCount", Json.num totalCount)]
    queriesIssued := 2 }

/-!
Section: GET /api/transactions/by-time

Only the validation path matters to the claims; the success path is still
given a concrete meaning.  The bucketing executed by `time_bucket` lives
in the external query executor (out of scope per §1 of the spec), so the
widths are modelled as fixed numbers of seconds.
-/

/-- Modelled from the spec: the external executor's `time_bucket` widths in
seconds for the twelve enumerated intervals; a month is approximated by 30
days (the executor itself is a black box out of this system's scope). -/
def intervalWidth : String → Nat
| "1 minute" => 60
| "5 minutes" => 300
| "10 minutes" => 600
| "15 minutes" => 900
| "30 minutes" => 1800
| "1 hour" => 3600
| "2 hours" => 7200
| "6 hours" => 21600
| "12 hours" => 43200
| "1 day" => 86400
| "1 week" => 604800
| "1 month" => 2592000
| _ => 86400

/-- Sum of a list of rationals. -/
def qSum (l : List ℚ) : ℚ := l.foldr (· + ·) 0

/-- Maximum of a nonempty list of rationals (0 for the empty list, which
the aggregation below never passes). -/
def qMax : List ℚ → ℚ
| [] => 0
| [q] => q
| q :: r :: rest => max q (qMax (r :: rest))

/-- Minimum of a nonempty list of rationals (0 for the empty list, which
the aggregation below never passes). -/
def qMin : List ℚ → ℚ
| [] => 0
| [q] => q
| q :: r :: rest => min q (qMin (r :: rest))

/-- The aggregate row for one bucket start `b` of width `w`. -/
def bucketRow (store : List Transaction) (w b : Nat) : Json :=
  let txs := store.filter fun tx => tx.time / w * w = b
  Json.obj [("bucket", Json.num b),
    ("transaction_count", Json.num txs.length),
    ("total_volume", Json.num (qSum (txs.map Transaction.output_total))),
    ("avg_fee", Json.num (qSum (txs.map Transaction.fee) / txs.length)),
    ("max_transaction", Json.num (qMax (txs.map Transaction.output_total))),
    ("min_transaction", Json.num (qMin (txs.map Transaction.output_total)))]

/-- Distinct bucket starts present in the store, descending, at most
`limit` of them. -/
def bucketStarts (store : List Transaction) (w limit : Nat) : List Nat :=
  (((store.map fun tx => tx.time / w * w).dedup.mergeSort (· ≥ ·)).take limit)

/-- The By-Time handler after `interval`/`limit` passed validation. -/
def byTimeCore (store : List Transaction) (interval : String)
    (limit : Nat) : Response :=
  let w := intervalWidth interval
  { status := 200
    headers := []
    body := Json.arr ((bucketStarts store w limit).map (bucketRow store w))
    queriesIssued := 1 }

/-!
Section: GET /api/transaction/:hash (legacy flat route)

Point lookup: zero rows give a 404 error body; otherwise the body is the
single row `result.rows[0]`, not an array.
-/

/-- The by-hash handler. -/
def byHashHandler (store : List Transaction) (hash : String) : Response :=
  match store.filter fun tx => tx.hash = hash with
  | [] =>
    { status := 404
      headers := []
      body := Json.obj [("error", Json.str "Transaction not found")]
      queriesIssued := 1 }
  | tx :: _ =>
    { status := 200
      headers := []
      body := txJson tx
      queriesIssued := 1 }

/-!
Section: Validation layer

`express-validator` runs each endpoint's chain over the raw query-string
parameters, collecting one entry per failing field, and the shared
`validateRequest` middleware answers
`400 { error: "Validation failed", details: errors.array() }` before the
handler body — and hence before any query — whenever the collected list is
nonempty.
-/

/-- The raw query string of a request: each parameter either absent or a
string. -/
structure RawQuery where
  limit : Option String := none
  offset : Option String := none
  start : Option String := none
  end_ : Option String := none
  interval : Option String := none
  term : Option String := none

/-- One collected validation failure: the failing field and its message. -/
structure FieldError where
  path : String
  msg : String
deriving DecidableEq

/-- The JSON shape of one entry of `errors.array()`. -/
def fieldErrorJson (e : FieldError) : Json :=
  Json.obj [("type", Json.str "field"), ("path", Json.str e.path),
    ("msg", Json.str e.msg), ("location", Json.str "query")]

/-- Decimal value of a digit string. -/
def digitsToNat (l : List Char) : Nat :=
  l.foldl (fun n c => n * 10 + (c.toNat - '0'.toNat)) 0

/-- Parse a nonempty all-digit character list. -/
def parseNatChars (l : List Char) : Option Nat :=
  if l.isEmpty then none
  else if l.all Char.isDigit then some (digitsToNat l) else none

/-- Parse a decimal integer with an optional leading minus sign, the
grammar `isInt()` accepts. -/
def parseIntStr (s : String) : Option Int :=
  match s.data with
  | '-' :: rest => (parseNatChars rest).map (fun n => -(n : Int))
  | l => (parseNatChars l).map (fun n => (n : Int))

/-- Validator `isInt` with a minimum and an optional maximum, on a raw
string. -/
def intOK (lo : Int) (hi : Option Int) (v : String) : Bool :=
  match parseIntStr v with
  | none => false
  | some n => decide (lo ≤ n) && (match hi with
    | none => true
    | some h => decide (n ≤ h))

/-- An `.optional()` check: absent parameters never fail; present ones
yield one default-message error when the predicate rejects them. -/
def optCheck (field : String) (v : Option String) (ok : String → Bool) :
    List FieldError :=
  match v with
  | none => []
  | some s => if ok s then [] else [⟨field, "Invalid value"⟩]

/-- Split a character list at every dash. -/
def splitOnDash : List Char → List (List Char)
| [] => [[]]
| c :: rest =>
  if c = '-' then [] :: splitOnDash rest
  else
    match splitOnDash rest with
    | [] => [[c]]
    | g :: gs => (c :: g) :: gs

/-- Modelled from the library's contract for `isDate()` (the validator
itself is external code): a `YYYY-MM-DD` string with a four-digit year, a
month in `[1,12]` and a day in `[1,31]`. -/
def parseDate (s : String) : Option CalDate :=
  match (splitOnDash s.data).map parseNatChars with
  | [some y, some m, some d] =>
    if 1000 ≤ y ∧ y ≤ 9999 ∧ 1 ≤ m ∧ m ≤ 12 ∧ 1 ≤ d ∧ d ≤ 31 then
      some ⟨y, m, d⟩
    else none
  | _ => none

/-- A required `isDate()` check with a `withMessage` override. -/
def reqDate (field : String) (v : Option String) (msg : String) :
    List FieldError :=
  match v with
  | none => [⟨field, msg⟩]
  | some s => if (parseDate s).isSome then [] else [⟨field, msg⟩]

/-- The twelve admissible `interval` values. -/
def VALID_TIME_INTERVALS : List String :=
  ["1 minute", "5 minutes", "10 minutes", "15 minutes", "30 minutes",
   "1 hour", "2 hours", "6 hours", "12 hours",
   "1 day", "1 week", "1 month"]

/-- The `withMessage` text of the `interval` validator, built by
interpolating `VALID_TIME_INTERVALS.join(', ')`. -/
def intervalMsg : String :=
  "Interval must be one of: " ++ String.intercalate ", " VALID_TIME_INTERVALS

/-- The `withMessage` text of the `term` validator. -/
def termMsg : String := "Search term must be at least 3 characters"

/-- Validation chain of the List endpoint. -/
def listErrors (raw : RawQuery) : List FieldError :=
  optCheck "limit" raw.limit (intOK 1 (some 100)) ++
  optCheck "offset" raw.offset (intOK 0 none)

/-- Validation chain of the Range endpoint. -/
def rangeErrors (raw : RawQuery) : List FieldError :=
  reqDate "start" raw.start "Valid start date is required" ++
  reqDate "end" raw.end_ "Valid end date is required" ++
  optCheck "limit" raw.limit (intOK 1 (some 100)) ++
  optCheck "offset" raw.offset (intOK 0 none)

/-- Validation chain of the By-Time endpoint. -/
def byTimeErrors (raw : RawQuery) : List FieldError :=
  (match raw.interval with
   | none => [⟨"interval", intervalMsg⟩]
   | some iv =>
     if iv ∈ VALID_TIME_INTERVALS then [] else [⟨"interval", intervalMsg⟩]) ++
  optCheck "limit" raw.limit (intOK 1 (some 100))

/-- Validation chain of the Search endpoint (`isString` always holds for a
present query parameter, so only the length check can fail). -/
def searchErrors (raw : RawQuery) : List FieldError :=
  (match raw.term with
   | none => [⟨"term", termMsg⟩]
   | some t => if 3 ≤ t.length then [] else [⟨"term", termMsg⟩]) ++
  optCheck "limit" raw.limit (intOK 1 (some 100))

/-- The `validateRequest` middleware's 400 answer: every collected failure
is surfaced in `details`, and no query has been issued. -/
def validationFailure (errs : List FieldError) : Response :=
  { status := 400
    headers := []
    body := Json.obj [("error", Json.str "Validation failed"),
      ("details", Json.arr (errs.map fieldErrorJson))]
    queriesIssued := 0 }

/-- Evaluation of `parseInt(raw || default)` on a validated (hence
integral, in-range) optional parameter. -/
def natParam (v : Option String) (dflt : Nat) : Nat :=
  match v with
  | none => dflt
  | some s =>
    match parseIntStr s with
    | some n => n.toNat
    | none => dflt

/-- The List endpoint on a raw request. -/
def listHandler (raw : RawQuery) (store : List Transaction) : Response :=
  match listErrors raw with
  | [] => listCore store (natParam raw.limit 25) (natParam raw.offset 0)
  | e :: es => validationFailure (e :: es)

/-- The Range endpoint on a raw request.  After validation both dates
parse; the final arm is unreachable and answers as if validation failed. -/
def rangeHandler (raw : RawQuery) (store : List Transaction) : Response :=
  match rangeErrors raw with
  | e :: es => validationFailure (e :: es)
  | [] =>
    match parseDate ((raw.start).getD ""), parseDate ((raw.end_).getD "") with
    | some s, some e =>
      rangeCore store s e (natParam raw.limit 25) (natParam raw.offset 0)
    | _, _ => validationFailure []

/-- The By-Time endpoint on a raw request. -/
def byTimeHandler (raw : RawQuery) (store : List Transaction) : Response :=
  match byTimeErrors raw with
  | [] => byTimeCore store ((raw.interval).getD "") (natParam raw.limit 30)
  | e :: es => validationFailure (e :: es)

/-- The Search endpoint on a raw request. -/
def searchHandler (raw : RawQuery) (store : List Transaction) : Response :=
  match searchErrors raw with
  | [] => searchCore store ((raw.term).getD "") (natParam raw.limit 25)
  | e :: es => validationFailure (e :: es)

/-!
Section: Client data-access layer (`TransactionService`)

Each method builds a URL, fetches it, and on `!response.ok` throws
`new Error(await this.<handler>(response))`.  The class defines
`handleErrorResponse`, but `getTransactions` and
`getTransactionsByDateRange` invoke `this.handleResponseError` — a
property that does not exist — so those two methods throw a `TypeError`
instead of the extracted message.  Method resolution is modelled by name.
-/

/-- What the client sees of a fetch response. -/
structure HttpResponse where
  ok : Bool
  status : Nat
  contentTypeJson : Bool
  body : Json

/-- JavaScript string truthiness of an optional JSON field: a present,
nonempty string. -/
def truthyStrField (j : Json) (k : String) : Option String :=
  match getField j k with
  | some (Json.str s) => if s = "" then none else some s
  | _ => none

/-- Method `TransactionService.handleErrorResponse`: prefer `message`, then
`error`, then the generic text with the status code, and use the generic
text whenever the body is not JSON. -/
def handleErrorResponse (r : HttpResponse) : String :=
  if r.contentTypeJson then
    match truthyStrField r.body "message" with
    | some m => m
    | none =>
      match truthyStrField r.body "error" with
      | some m => m
      | none => "API error: " ++ toString r.status
  else
    "API error: " ++ toString r.status

/-- The class's method table, looked up by the property name a call site
uses; only the error-handling method is modelled (the data methods are the
callers themselves). -/
def serviceMethod : String → Option (HttpResponse → String)
| "handleErrorResponse" => some handleErrorResponse
| _ => none

/-- What a `TransactionService` method ends up throwing. -/
inductive Thrown where
| jsError : String → Thrown
| typeError : String → Thrown
deriving DecidableEq

/-- Evaluate `new Error(await this.<name>(response))` at a call site:
calling an absent property raises a `TypeError`. -/
def throwVia (name : String) (r : HttpResponse) : Thrown :=
  match serviceMethod name with
  | some f => Thrown.jsError (f r)
  | none => Thrown.typeError ("this." ++ name ++ " is not a function")

/-- What `getTransactions` throws on a non-ok response (it calls
`this.handleResponseError`). -/
def getTransactionsThrown (r : HttpResponse) : Thrown :=
  throwVia "handleResponseError" r

/-- What `getTransactionsByDateRange` throws on a non-ok response (it
calls `this.handleResponseError`). -/
def getTransactionsByDateRangeThrown (r : HttpResponse) : Thrown :=
  throwVia "handleResponseError" r

/-- What `searchTransactions` throws on a non-ok response (it calls
`this.handleErrorResponse`). -/
def searchTransactionsThrown (r : HttpResponse) : Thrown :=
  throwVia "handleErrorResponse" r

/-- What `getTransactionsByTime` throws on a non-ok response (it calls
`this.handleErrorResponse`). -/
def getTransactionsByTimeThrown (r : HttpResponse) : Thrown :=
  throwVia "handleErrorResponse" r

/-- The claim-side extraction rule: the JSON body's `message` field if
present, else its `error` field, else a generic message containing the
numeric status code. -/
def claimedErrorMessage (r : HttpResponse) : String :=
  match truthyStrField r.body "message" with
  | some m => m
  | none =>
    match truthyStrField r.body "error" with
    | some m => m
    | none => "API error: " ++ toString r.status

/-!
Section: Client URL construction (`searchTransactions`)
-/

/-- Upper-case hexadecimal digit. -/
def hexDigit (n : Nat) : Char :=
  if n < 10 then Char.ofNat ('0'.toNat + n) else Char.ofNat ('A'.toNat + n - 10)

/-- Percent-encoding `%XY` of one byte. -/
def percentByte (b : Nat) : List Char := ['%', hexDigit (b / 16), hexDigit (b % 16)]

/-- UTF-8 bytes of one character, as numbers. -/
def utf8Bytes (c : Char) : List Nat :=
  let n := c.toNat
  if n < 128 then [n]
  else if n < 2048 then [192 + n / 64, 128 + n % 64]
  else if n < 65536 then [224 + n / 4096, 128 + n / 64 % 64, 128 + n % 64]
  else [240 + n / 262144, 128 + n / 4096 % 64, 128 + n / 64 % 64, 128 + n % 64]

/-- Characters `encodeURIComponent` leaves untouched. -/
def uriUnreserved (c : Char) : Bool :=
  c.isAlphanum || c ∈ ['-', '_', '.', '!', '~', '*', '\'', '(', ')']

/-- Model of `encodeURIComponent`. -/
def encodeURIComponent (s : String) : String :=
  ⟨s.data.flatMap fun c =>
    if uriUnreserved c then [c] else (utf8Bytes c).flatMap percentByte⟩

/-- The URL `searchTransactions(term, limit, offset)` fetches.  The method
accepts `offset` but the template only interpolates `term` and `limit`. -/
def searchTransactionsUrl (term : String) (limit : Nat) (_offset : Nat) :
    String :=
  "/api/transactions/search?term=" ++ encodeURIComponent term ++
    "&limit=" ++ toString limit

/-!
Section: Arithmetic bridge lemmas

`Math.ceil`/`Math.floor` over exact division, expressed through natural
division.
-/

lemma qceil_natDiv (a b : Nat) (hb : 0 < b) :
    ⌈(a : ℚ) / (b : ℚ)⌉ = (((a + b - 1) / b : ℕ) : ℤ) := by
  have hb' : (0 : ℚ) < (b : ℚ) := by exact_mod_cast hb
  have hmod := Nat.div_add_mod (a + b - 1) b
  have hlt : (a + b - 1) % b < b := Nat.mod_lt _ hb
  set q := (a + b - 1) / b with hq
  have h1 : a ≤ b * q := by omega
  have h2 : b * q < a + b := by omega
  have hq1 : (a : ℚ) ≤ (b : ℚ) * (q : ℚ) := by exact_mod_cast h1
  have hq2 : (b : ℚ) * (q : ℚ) < (a : ℚ) + (b : ℚ) := by exact_mod_cast h2
  rw [Int.ceil_eq_iff]
  constructor
  · rw [lt_div_iff₀ hb']
    push_cast
    nlinarith
  · rw [div_le_iff₀ hb']
    push_cast
    nlinarith

lemma qfloor_natDiv (a b : Nat) (hb : 0 < b) :
    ⌊(a : ℚ) / (b : ℚ)⌋ = ((a / b : ℕ) : ℤ) := by
  have hb' : (0 : ℚ) < (b : ℚ) := by exact_mod_cast hb
  have hmod := Nat.div_add_mod a b
  have hlt : a % b < b := Nat.mod_lt _ hb
  set q := a / b with hq
  have h1 : b * q ≤ a := by omega
  have h2 : a < b * q + b := by omega
  have hq1 : (b : ℚ) * (q : ℚ) ≤ (a : ℚ) := by exact_mod_cast h1
  have hq2 : (a : ℚ) < (b : ℚ) * (q : ℚ) + (b : ℚ) := by exact_mod_cast h2
  rw [Int.floor_eq_iff]
  constructor
  · rw [le_div_iff₀ hb']
    push_cast
    nlinarith
  · rw [div_lt_iff₀ hb']
    push_cast
    nlinarith

/-!
Section: Structural lemmas about the served pages
-/

/-- A served page is a sublist of the sorted result set. -/
lemma page_sublist (l : List Transaction) (limit offset : Nat) :
    List.Sublist ((l.drop offset).take limit) l :=
  ((l.drop offset).take_sublist limit).trans (l.drop_sublist offset)

/-- The sort is a permutation of its input. -/
lemma orderByTimeDesc_perm (l : List Transaction) :
    List.Perm (orderByTimeDesc l) l :=
  List.perm_insertionSort timeDesc l

/-- The sort output is time-descending. -/
lemma orderByTimeDesc_sorted (l : List Transaction) :
    List.Sorted timeDesc (orderByTimeDesc l) :=
  List.sorted_insertionSort timeDesc l

/-- Any page of the sorted list is still time-descending. -/
lemma page_sorted (l : List Transaction) (limit offset : Nat) :
    List.Sorted timeDesc (((orderByTimeDesc l).drop offset).take limit) :=
  List.Pairwise.sublist (page_sublist _ limit offset) (orderByTimeDesc_sorted l)

/-- Members of a page of the sorted filtered list satisfy the filter. -/
lemma page_mem_filter (l : List Transaction) (p : Transaction → Bool)
    (limit offset : Nat) (tx : Transaction)
    (h : tx ∈ ((orderByTimeDesc (l.filter p)).drop offset).take limit) :
    p tx = true := by
  have h1 : tx ∈ orderByTimeDesc (l.filter p) :=
    (page_sublist _ limit offset).mem h
  have h2 : tx ∈ l.filter p := (orderByTimeDesc_perm _).mem_iff.mp h1
  exact (List.mem_filter.mp h2).2

/-!
Section: Concrete fixtures used by witnesses and counterexamples
-/

/-- Fixture row. -/
def txA : Transaction := ⟨"aaa111", 1, 100, 5, 50, 1/10, 250⟩

/-- Fixture row. -/
def txB : Transaction := ⟨"bbb222", 2, 200, 7, 70, 2/10, 300⟩

/-- Fixture row. -/
def txC : Transaction := ⟨"ccc333", 3, 300, 9, 90, 3/10, 350⟩

/-- Fixture table of three rows. -/
def demoStore : List Transaction := [txA, txB, txC]

/-!
Section: C1 — List endpoint pagination formulas
-/

/-- C1: for every store and every validated `limit ∈ [1,100]`,
`offset ≥ 0`, the List body reports
`pagination.totalPages = ceil(totalCount / limit)` (natural ceiling
division) and `pagination.currentPage = floor(offset / limit) + 1`
(natural division), and at most `limit` rows are returned; `limit ≥ 1`
rules out division by zero. -/
theorem list_pagination_formulas (store : List Transaction)
    (limit offset : Nat) (h1 : 1 ≤ limit) (h2 : limit ≤ 100) :
    paginationNum (listCore store limit offset) "totalPages"
        = some (((store.length + limit - 1) / limit : ℕ) : ℚ) ∧
    paginationNum (listCore store limit offset) "currentPage"
        = some ((offset / limit + 1 : ℕ) : ℚ) ∧
    bodyRowCount (listCore store limit offset) ≤ limit := by
  have hb : 0 < limit := h1
  refine ⟨?_, ?_, ?_⟩
  · have e : paginationNum (listCore store limit offset) "totalPages"
        = some ((⌈(store.length : ℚ) / (limit : ℚ)⌉ : ℤ) : ℚ) := rfl
    rw [e, qceil_natDiv _ _ hb]
    norm_cast
  · have e : paginationNum (listCore store limit offset) "currentPage"
        = some (((⌊(offset : ℚ) / (limit : ℚ)⌋ + 1 : ℤ)) : ℚ) := rfl
    rw [e, qfloor_natDiv _ _ hb]
    norm_cast
  · have e : bodyRowCount (listCore store limit offset)
        = ((((orderByTimeDesc store).drop offset).take limit).map txJson).length := rfl
    rw [e, List.length_map, List.length_take]
    exact min_le_left _ _

/-- C1 witness: evaluation on a three-row store with `limit = 2`,
`offset = 0`. -/
theorem list_pagination_formulas_witness :
    paginationNum (listCore demoStore 2 0) "totalPages"
        = some (((demoStore.length + 2 - 1) / 2 : ℕ) : ℚ) ∧
    paginationNum (listCore demoStore 2 0) "currentPage"
        = some ((0 / 2 + 1 : ℕ) : ℚ) ∧
    bodyRowCount (listCore demoStore 2 0) ≤ 2 :=
  list_pagination_formulas demoStore 2 0 (by decide) (by decide)

/-!
Section: C2 — List endpoint `X-*` headers versus the body
-/

/-- C2 (amended): the List endpoint's `X-Total-Count` and `X-Total-Pages`
headers carry exactly the body's `totalCount` and `pagination.totalPages`,
and `X-Per-Page` carries `limit`; but `X-Current-Page` is computed as
`offset / limit + 1` without flooring, so it agrees with the body's
`pagination.currentPage` exactly when `limit` divides `offset`. -/
theorem list_headers_mirror (store : List Transaction)
    (limit offset : Nat) (h1 : 1 ≤ limit) (h2 : limit ≤ 100) :
    headerNum (listCore store limit offset) "X-Total-Count"
        = bodyNum (listCore store limit offset) "totalCount" ∧
    headerNum (listCore store limit offset) "X-Total-Pages"
        = paginationNum (listCore store limit offset) "totalPages" ∧
    headerNum (listCore store limit offset) "X-Per-Page"
        = some ((limit : ℚ)) ∧
    (headerNum (listCore store limit offset) "X-Current-Page"
        = paginationNum (listCore store limit offset) "currentPage"
      ↔ limit ∣ offset) := by
  have hb : 0 < limit := h1
  have hb' : (0 : ℚ) < (limit : ℚ) := by exact_mod_cast hb
  refine ⟨rfl, rfl, rfl, ?_⟩
  have eh : headerNum (listCore store limit offset) "X-Current-Page"
      = some ((offset : ℚ) / (limit : ℚ) + 1) := rfl
  have eb : paginationNum (listCore store limit offset) "currentPage"
      = some (((⌊(offset : ℚ) / (limit : ℚ)⌋ + 1 : ℤ)) : ℚ) := rfl
  rw [eh, eb]
  constructor
  · intro h
    have h' : (offset : ℚ) / (limit : ℚ) + 1
        = ((⌊(offset : ℚ) / (limit : ℚ)⌋ : ℚ) + 1) := by
      have := Option.some.inj h
      push_cast at this
      exact this
    have h'' : (offset : ℚ)
        = (⌊(offset : ℚ) / (limit : ℚ)⌋ : ℚ) * (limit : ℚ) := by
      have hne : (limit : ℚ) ≠ 0 := ne_of_gt hb'
      field_simp at h'
      linarith
    have hz : (offset : ℤ) = ⌊(offset : ℚ) / (limit : ℚ)⌋ * (limit : ℤ) := by
      exact_mod_cast h''
    have : (limit : ℤ) ∣ (offset : ℤ) :=
      ⟨⌊(offset : ℚ) / (limit : ℚ)⌋, by rw [hz]; exact mul_comm _ _⟩
    exact_mod_cast this
  · intro hdvd
    have hne : (limit : ℚ) ≠ 0 := ne_of_gt hb'
    have hcast : ((offset / limit : ℕ) : ℚ) = (offset : ℚ) / (limit : ℚ) :=
      Nat.cast_div hdvd hne
    have hfl : ⌊(offset : ℚ) / (limit : ℚ)⌋ = ((offset / limit : ℕ) : ℤ) :=
      qfloor_natDiv _ _ hb
    congr 1
    rw [Int.cast_add, Int.cast_one, hfl, Int.cast_natCast, hcast]
/-- C2 witness: on `limit = 5`, `offset = 10` (a multiple) the header and
the body agree. -/
theorem list_headers_mirror_witness :
    headerNum (listCore demoStore 5 10) "X-Total-Count"
        = bodyNum (listCore demoStore 5 10) "totalCount" ∧
    headerNum (listCore demoStore 5 10) "X-Total-Pages"
        = paginationNum (listCore demoStore 5 10) "totalPages" ∧
    headerNum (listCore demoStore 5 10) "X-Per-Page" = some ((5 : ℚ)) ∧
    (headerNum (listCore demoStore 5 10) "X-Current-Page"
        = paginationNum (listCore demoStore 5 10) "currentPage"
      ↔ 5 ∣ 10) :=
  list_headers_mirror demoStore 5 10 (by decide) (by decide)

/-- C2 counterexample: at the valid request `limit = 2`, `offset = 1` the
`X-Current-Page` header (the rational `3/2`) differs from the body's
`pagination.currentPage` (`1`), so the headers do not always mirror the
body. -/
theorem list_header_current_page_ne :
    (1 ≤ 2 ∧ 2 ≤ 100) ∧
    headerNum (listCore demoStore 2 1) "X-Current-Page"
      ≠ paginationNum (listCore demoStore 2 1) "currentPage" := by
  refine ⟨⟨by norm_num, by norm_num⟩, ?_⟩
  have eh : headerNum (listCore demoStore 2 1) "X-Current-Page"
      = some (((1 : ℕ) : ℚ) / ((2 : ℕ) : ℚ) + 1) := rfl
  have eb : paginationNum (listCore demoStore 2 1) "currentPage"
      = some (((⌊((1 : ℕ) : ℚ) / ((2 : ℕ) : ℚ)⌋ + 1 : ℤ)) : ℚ) := rfl
  rw [eh, eb]
  intro h
  have h' := Option.some.inj h
  rw [qfloor_natDiv 1 2 (by norm_num)] at h'
  norm_num at h'

/-!
Section: `ILIKE` versus case-insensitive substring containment
-/

/-- On an empty haystack `isPrefixCI` only accepts the empty needle. -/
lemma isPrefixCI_nil_right (t : List Char) : isPrefixCI t [] = t.isEmpty := by
  cases t <;> rfl

/-- A leading `%` tries the remaining pattern on every suffix. -/
lemma likeMatch_percent (ps : List Char) (s : List Char) :
    likeMatch ('%' :: ps) s = s.tails.any (fun t => likeMatch ps t) := by
  rw [likeMatch.eq_def]
  simp

/-- The pattern `%` alone matches everything. -/
lemma likeMatch_percent_only (s : List Char) : likeMatch ['%'] s = true := by
  rw [likeMatch_percent]
  induction s with
  | nil => rfl
  | cons c cs ih => simpa [List.tails_cons] using Or.inr ih

/-- Unfolding `likeMatch` at an ordinary (non-metacharacter) pattern
head. -/
lemma likeMatch_literal (c : Char) (ps s : List Char)
    (hp : c ≠ '%') (hu : c ≠ '_') (he : c ≠ '\\') :
    likeMatch (c :: ps) s =
      match s with
      | [] => false
      | d :: ss => charEqCI c d && likeMatch ps ss := by
  rw [likeMatch.eq_def]
  simp [hp, hu, he]

/-- Decompose a `noWildcards` certificate at a cons. -/
lemma noWildcards_cons (a : Char) (as : List Char)
    (hw : noWildcards (a :: as) = true) :
    a ≠ '%' ∧ a ≠ '_' ∧ a ≠ '\\' ∧ noWildcards as = true := by
  simp only [noWildcards, List.all_cons, Bool.and_eq_true, Bool.not_eq_true',
    beq_eq_false_iff_ne] at hw
  simp only [noWildcards]
  tauto

/-- A wildcard-free pattern followed by `%` matches exactly the strings it
prefixes case-insensitively. -/
lemma likeMatch_starfree :
    ∀ t : List Char, noWildcards t = true →
    ∀ s : List Char, likeMatch (t ++ ['%']) s = isPrefixCI t s := by
  intro t
  induction t with
  | nil =>
    intro _ s
    simpa [isPrefixCI] using likeMatch_percent_only s
  | cons a as ih =>
    intro hw s
    obtain ⟨hp, hu, he, hw'⟩ := noWildcards_cons a as hw
    cases s with
    | nil =>
      rw [List.cons_append, likeMatch_literal a (as ++ ['%']) [] hp hu he]
      rfl
    | cons d ss =>
      rw [List.cons_append, likeMatch_literal a (as ++ ['%']) (d :: ss) hp hu he]
      show (charEqCI a d && likeMatch (as ++ ['%']) ss)
          = isPrefixCI (a :: as) (d :: ss)
      rw [ih hw' ss]
      rfl

/-- Containment is "some suffix has the needle as a case-insensitive
prefix". -/
lemma containsCI_tails (t : List Char) :
    ∀ h : List Char, containsCI t h = h.tails.any (fun s => isPrefixCI t s) := by
  intro h
  induction h with
  | nil => simp [containsCI, isPrefixCI_nil_right]
  | cons c hs ih => simp [containsCI, ih, List.tails_cons]

/-- On a wildcard-free term the pattern `%term%` under `ILIKE` is exactly
case-insensitive substring containment. -/
lemma likeMatch_eq_containsCI (t : List Char) (hw : noWildcards t = true)
    (h : List Char) :
    likeMatch ('%' :: (t ++ ['%'])) h = containsCI t h := by
  rw [likeMatch_percent, containsCI_tails]
  congr 1
  funext s
  exact likeMatch_starfree t hw s

/-- Helper: the final rewriting step of the decomposition lemma. -/
lemma drop_map_decomposition (t h u v : List Char)
    (huv : u ++ t.map Char.toLower ++ v = h.map Char.toLower) :
    t.map Char.toLower ++ v = (h.drop u.length).map Char.toLower := by
  rw [List.map_drop, ← huv, List.append_assoc, List.drop_left]

/-- Prefixing `isPrefixCI` agrees with list prefixing after lowering both
sides. -/
lemma isPrefixCI_iff_map_toLower (t : List Char) :
    ∀ s : List Char, isPrefixCI t s = true ↔
      ∃ r, t.map Char.toLower ++ r = s.map Char.toLower := by
  induction t with
  | nil =>
    intro s
    simp [isPrefixCI]
  | cons a as ih =>
    intro s
    cases s with
    | nil =>
      constructor
      · intro hfalse
        simp [isPrefixCI] at hfalse
      · rintro ⟨r, hr⟩
        simp at hr
    | cons d ss =>
      simp only [isPrefixCI, Bool.and_eq_true, List.map_cons, List.cons_append,
        List.cons.injEq, charEqCI, beq_iff_eq]
      rw [ih ss]
      constructor
      · rintro ⟨h1, r, hr⟩
        exact ⟨r, h1, hr⟩
      · rintro ⟨r, h1, hr⟩
        exact ⟨h1, r, hr⟩

/-- Containment `containsCI` is precisely "the lowered needle occurs
contiguously inside the lowered haystack": the claim-side reading of case-insensitive
substring containment is faithful. -/
lemma containsCI_iff_decomposition (t h : List Char) :
    containsCI t h = true ↔
      ∃ u v, u ++ t.map Char.toLower ++ v = h.map Char.toLower := by
  rw [containsCI_tails, List.any_eq_true]
  constructor
  · rintro ⟨s, hmem, hpre⟩
    obtain ⟨u, hu⟩ := (List.mem_tails s h).mp hmem
    obtain ⟨r, hr⟩ := (isPrefixCI_iff_map_toLower t s).mp hpre
    refine ⟨u.map Char.toLower, r, ?_⟩
    rw [← hu, List.map_append, ← hr]
    simp
  · rintro ⟨u, v, huv⟩
    refine ⟨h.drop u.length, (List.mem_tails _ _).mpr (List.drop_suffix _ _), ?_⟩
    rw [isPrefixCI_iff_map_toLower]
    exact ⟨v, drop_map_decomposition t h u v huv⟩

/-!
Section: C3 — the response envelope of the list-style endpoints
-/

/-- C3 (amended): the List and Range success responses carry the full
uniform envelope `{ rows, totalCount, pagination: { limit, offset,
currentPage, totalPages } }`; the Search success body carries only
`rows` and `totalCount` and has no `pagination` block. -/
theorem envelope_shape (store : List Transaction) (limit offset : Nat)
    (s e : CalDate) (term : String) (hse : dateSec s ≤ dateSec e) :
    ((bodyRows (listCore store limit offset)).isSome ∧
     bodyNum (listCore store limit offset) "totalCount"
        = some ((store.length : ℚ)) ∧
     paginationNum (listCore store limit offset) "limit"
        = some ((limit : ℚ)) ∧
     paginationNum (listCore store limit offset) "offset"
        = some ((offset : ℚ)) ∧
     (paginationNum (listCore store limit offset) "currentPage").isSome ∧
     (paginationNum (listCore store limit offset) "totalPages").isSome) ∧
    ((bodyRows (rangeCore store s e limit offset)).isSome ∧
     (bodyNum (rangeCore store s e limit offset) "totalCount").isSome ∧
     paginationNum (rangeCore store s e limit offset) "limit"
        = some ((limit : ℚ)) ∧
     paginationNum (rangeCore store s e limit offset) "offset"
        = some ((offset : ℚ)) ∧
     (paginationNum (rangeCore store s e limit offset) "currentPage").isSome ∧
     (paginationNum (rangeCore store s e limit offset) "totalPages").isSome) ∧
    ((searchCore store term limit).status = 200 ∧
     (bodyRows (searchCore store term limit)).isSome ∧
     (bodyNum (searchCore store term limit) "totalCount").isSome ∧
     bodyField (searchCore store term limit) "pagination" = none) := by
  have hno : ¬ dateSec e < dateSec s := not_lt.mpr hse
  refine ⟨⟨rfl, rfl, rfl, rfl, rfl, rfl⟩, ?_, rfl, rfl, rfl, rfl⟩
  unfold rangeCore
  rw [if_neg hno]
  exact ⟨rfl, rfl, rfl, rfl, rfl, rfl⟩

/-- C3 witness: evaluation at concrete arguments. -/
theorem envelope_shape_witness :
    ((bodyRows (listCore demoStore 2 0)).isSome ∧
     bodyNum (listCore demoStore 2 0) "totalCount"
        = some ((demoStore.length : ℚ)) ∧
     paginationNum (listCore demoStore 2 0) "limit" = some ((2 : ℚ)) ∧
     paginationNum (listCore demoStore 2 0) "offset" = some ((0 : ℚ)) ∧
     (paginationNum (listCore demoStore 2 0) "currentPage").isSome ∧
     (paginationNum (listCore demoStore 2 0) "totalPages").isSome) ∧
    ((bodyRows (rangeCore demoStore ⟨2024, 1, 1⟩ ⟨2024, 1, 2⟩ 2 0)).isSome ∧
     (bodyNum (rangeCore demoStore ⟨2024, 1, 1⟩ ⟨2024, 1, 2⟩ 2 0)
        "totalCount").isSome ∧
     paginationNum (rangeCore demoStore ⟨2024, 1, 1⟩ ⟨2024, 1, 2⟩ 2 0)
        "limit" = some ((2 : ℚ)) ∧
     paginationNum (rangeCore demoStore ⟨2024, 1, 1⟩ ⟨2024, 1, 2⟩ 2 0)
        "offset" = some ((0 : ℚ)) ∧
     (paginationNum (rangeCore demoStore ⟨2024, 1, 1⟩ ⟨2024, 1, 2⟩ 2 0)
        "currentPage").isSome ∧
     (paginationNum (rangeCore demoStore ⟨2024, 1, 1⟩ ⟨2024, 1, 2⟩ 2 0)
        "totalPages").isSome) ∧
    ((searchCore demoStore "abc" 25).status = 200 ∧
     (bodyRows (searchCore demoStore "abc" 25)).isSome ∧
     (bodyNum (searchCore demoStore "abc" 25) "totalCount").isSome ∧
     bodyField (searchCore demoStore "abc" 25) "pagination" = none) :=
  envelope_shape demoStore 2 0 ⟨2024, 1, 1⟩ ⟨2024, 1, 2⟩ "abc" (by decide)

/-- C3 counterexample: a valid Search success response whose body has no
`pagination` block, refuting "every list-style success response is wrapped
in the uniform envelope". -/
theorem search_success_has_no_pagination :
    (searchCore demoStore "abc" 25).status = 200 ∧
    bodyField (searchCore demoStore "abc" 25) "pagination" = none :=
  ⟨rfl, rfl⟩

/-!
Section: C4 — the Range endpoint
-/

/-- C4 (amended): when `end < start` the Range endpoint answers the 400
domain error without issuing any query; when `end ≥ start` it issues its
two queries and serves the page (`OFFSET`, then at most `LIMIT` rows) of
exactly those rows whose time lies within `[start 00:00:00, end 23:59:59]`
inclusive, ordered by time descending. -/
theorem range_endpoint_behavior (store : List Transaction) (s e : CalDate)
    (limit offset : Nat) :
    (dateSec e < dateSec s →
      (rangeCore store s e limit offset).status = 400 ∧
      (rangeCore store s e limit offset).queriesIssued = 0 ∧
      bodyField (rangeCore store s e limit offset) "error"
        = some (Json.str "Invalid date range") ∧
      bodyField (rangeCore store s e limit offset) "message"
        = some (Json.str "End date cannot be before start date")) ∧
    (dateSec s ≤ dateSec e →
      (rangeCore store s e limit offset).status = 200 ∧
      (rangeCore store s e limit offset).queriesIssued = 2 ∧
      bodyRows (rangeCore store s e limit offset)
        = some ((rangeServedRows store s e limit offset).map txJson) ∧
      List.Sorted timeDesc (rangeServedRows store s e limit offset) ∧
      (∀ tx ∈ rangeServedRows store s e limit offset,
        dateSec s ≤ tx.time ∧ tx.time ≤ dateSec e + daySecMinusOne) ∧
      (rangeServedRows store s e limit offset).length ≤ limit) := by
  constructor
  · intro hlt
    unfold rangeCore
    rw [if_pos hlt]
    exact ⟨rfl, rfl, rfl, rfl⟩
  · intro hse
    have hno : ¬ dateSec e < dateSec s := not_lt.mpr hse
    have hresp : (rangeCore store s e limit offset).status = 200 ∧
        (rangeCore store s e limit offset).queriesIssued = 2 ∧
        bodyRows (rangeCore store s e limit offset)
          = some ((rangeServedRows store s e limit offset).map txJson) := by
      unfold rangeCore
      rw [if_neg hno]
      exact ⟨rfl, rfl, rfl⟩
    refine ⟨hresp.1, hresp.2.1, hresp.2.2, ?_, ?_, ?_⟩
    · exact page_sorted _ limit offset
    · intro tx htx
      have hmem := page_mem_filter store (inRange s e) limit offset tx htx
      unfold inRange at hmem
      rw [Bool.and_eq_true, decide_eq_true_iff, decide_eq_true_iff] at hmem
      exact hmem
    · unfold rangeServedRows
      rw [List.length_take]
      exact min_le_left _ _

/-- C4 witness: with `start = end = 2024-01-01` and two rows inside that
day, the served page at `limit = 25`, `offset = 0` is in range, sorted
and within the limit; and a reversed pair of dates is rejected without a
query. -/
theorem range_endpoint_behavior_witness :
    ((rangeCore demoStore ⟨2024, 1, 2⟩ ⟨2024, 1, 1⟩ 25 0).status = 400 ∧
     (rangeCore demoStore ⟨2024, 1, 2⟩ ⟨2024, 1, 1⟩ 25 0).queriesIssued = 0 ∧
     bodyField (rangeCore demoStore ⟨2024, 1, 2⟩ ⟨2024, 1, 1⟩ 25 0) "error"
        = some (Json.str "Invalid date range") ∧
     bodyField (rangeCore demoStore ⟨2024, 1, 2⟩ ⟨2024, 1, 1⟩ 25 0) "message"
        = some (Json.str "End date cannot be before start date")) ∧
    ((rangeCore demoStore ⟨2024, 1, 1⟩ ⟨2024, 1, 2⟩ 25 0).status = 200 ∧
     (rangeCore demoStore ⟨2024, 1, 1⟩ ⟨2024, 1, 2⟩ 25 0).queriesIssued = 2 ∧
     bodyRows (rangeCore demoStore ⟨2024, 1, 1⟩ ⟨2024, 1, 2⟩ 25 0)
        = some ((rangeServedRows demoStore ⟨2024, 1, 1⟩ ⟨2024, 1, 2⟩ 25 0).map
            txJson) ∧
     List.Sorted timeDesc
        (rangeServedRows demoStore ⟨2024, 1, 1⟩ ⟨2024, 1, 2⟩ 25 0) ∧
     (∀ tx ∈ rangeServedRows demoStore ⟨2024, 1, 1⟩ ⟨2024, 1, 2⟩ 25 0,
        dateSec ⟨2024, 1, 1⟩ ≤ tx.time ∧
        tx.time ≤ dateSec ⟨2024, 1, 2⟩ + daySecMinusOne) ∧
     (rangeServedRows demoStore ⟨2024, 1, 1⟩ ⟨2024, 1, 2⟩ 25 0).length ≤ 25) :=
  ⟨(range_endpoint_behavior demoStore ⟨2024, 1, 2⟩ ⟨2024, 1, 1⟩ 25 0).1
      (by decide),
   (range_endpoint_behavior demoStore ⟨2024, 1, 1⟩ ⟨2024, 1, 2⟩ 25 0).2
      (by decide)⟩

/-- Fixture rows living inside the day 2024-01-01. -/
def txD : Transaction := ⟨"ddd444", 4, dateSec ⟨2024, 1, 1⟩ + 10, 5, 50, 1, 250⟩

/-- Fixture rows living inside the day 2024-01-01. -/
def txE : Transaction := ⟨"eee555", 5, dateSec ⟨2024, 1, 1⟩ + 20, 7, 70, 2, 300⟩

/-- C4 counterexample: with two rows inside the requested day and
`limit = 1`, the endpoint returns one row while two rows lie in the range,
so the returned rows are not "exactly those" whose time falls in the
interval. -/
theorem range_rows_not_exactly_in_range :
    bodyRowCount (rangeCore [txD, txE] ⟨2024, 1, 1⟩ ⟨2024, 1, 1⟩ 1 0) = 1 ∧
    (([txD, txE] : List Transaction).filter
        (inRange ⟨2024, 1, 1⟩ ⟨2024, 1, 1⟩)).length = 2 :=
  ⟨rfl, rfl⟩

/-!
Section: C5 — By-Time interval validation
-/

/-- Case-sensitive list prefixing, decidably. -/
def isPrefixSeq : List Char → List Char → Bool
| [], _ => true
| _ :: _, [] => false
| a :: as, b :: bs => (a == b) && isPrefixSeq as bs

/-- Case-sensitive contiguous containment, decidably. -/
def containsSeq : List Char → List Char → Bool
| t, [] => t.isEmpty
| t, c :: h => isPrefixSeq t (c :: h) || containsSeq t h

/-- C5: a present `interval` outside the twelve enumerated values makes
the By-Time endpoint answer 400 with no query issued; the failure entry
for `interval` carries the `withMessage` text, the response's `details`
enumerate all collected failures, and the message names every allowed
value. -/
theorem byTime_invalid_interval (raw : RawQuery) (store : List Transaction)
    (iv : String) (hiv : raw.interval = some iv)
    (hmem : iv ∉ VALID_TIME_INTERVALS) :
    (byTimeHandler raw store).status = 400 ∧
    (byTimeHandler raw store).queriesIssued = 0 ∧
    detailsOf (byTimeHandler raw store)
      = some ((byTimeErrors raw).map fieldErrorJson) ∧
    (⟨"interval", intervalMsg⟩ : FieldError) ∈ byTimeErrors raw ∧
    ∀ v ∈ VALID_TIME_INTERVALS, containsSeq v.data intervalMsg.data = true := by
  have herr : byTimeErrors raw
      = ⟨"interval", intervalMsg⟩ ::
          optCheck "limit" raw.limit (intOK 1 (some 100)) := by
    unfold byTimeErrors
    rw [hiv]
    show (if iv ∈ VALID_TIME_INTERVALS then ([] : List FieldError)
        else [⟨"interval", intervalMsg⟩]) ++
        optCheck "limit" raw.limit (intOK 1 (some 100)) = _
    rw [if_neg hmem]
    rfl
  have hh : byTimeHandler raw store
      = validationFailure (byTimeErrors raw) := by
    unfold byTimeHandler
    rw [herr]
  rw [hh]
  refine ⟨rfl, rfl, rfl, ?_, ?_⟩
  · rw [herr]
    exact List.mem_cons_self _ _
  · decide

/-- C5 witness: the request `interval = "2 days"` is rejected with the
full enumeration in the message. -/
theorem byTime_invalid_interval_witness :
    (byTimeHandler { interval := some "2 days" } demoStore).status = 400 ∧
    (byTimeHandler { interval := some "2 days" } demoStore).queriesIssued = 0 ∧
    detailsOf (byTimeHandler { interval := some "2 days" } demoStore)
      = some ((byTimeErrors { interval := some "2 days" }).map fieldErrorJson) ∧
    (⟨"interval", intervalMsg⟩ : FieldError)
      ∈ byTimeErrors { interval := some "2 days" } ∧
    ∀ v ∈ VALID_TIME_INTERVALS, containsSeq v.data intervalMsg.data = true :=
  byTime_invalid_interval { interval := some "2 days" } demoStore "2 days"
    rfl (by decide)

/-!
Section: C9 — validation precedes any query and batches all failures
-/

/-- C9: on each of the four validated endpoints, any validation failure
yields the single 400 response before any query is issued, and its
`details` enumerate every collected failing field in one batch. -/
theorem validation_before_any_query (raw : RawQuery)
    (store : List Transaction) :
    (listErrors raw ≠ [] →
      (listHandler raw store).status = 400 ∧
      (listHandler raw store).queriesIssued = 0 ∧
      detailsOf (listHandler raw store)
        = some ((listErrors raw).map fieldErrorJson)) ∧
    (rangeErrors raw ≠ [] →
      (rangeHandler raw store).status = 400 ∧
      (rangeHandler raw store).queriesIssued = 0 ∧
      detailsOf (rangeHandler raw store)
        = some ((rangeErrors raw).map fieldErrorJson)) ∧
    (byTimeErrors raw ≠ [] →
      (byTimeHandler raw store).status = 400 ∧
      (byTimeHandler raw store).queriesIssued = 0 ∧
      detailsOf (byTimeHandler raw store)
        = some ((byTimeErrors raw).map fieldErrorJson)) ∧
    (searchErrors raw ≠ [] →
      (searchHandler raw store).status = 400 ∧
      (searchHandler raw store).queriesIssued = 0 ∧
      detailsOf (searchHandler raw store)
        = some ((searchErrors raw).map fieldErrorJson)) := by
  refine ⟨?_, ?_, ?_, ?_⟩
  · intro hne
    unfold listHandler
    cases he : listErrors raw with
    | nil => exact absurd he hne
    | cons a as => exact ⟨rfl, rfl, rfl⟩
  · intro hne
    unfold rangeHandler
    cases he : rangeErrors raw with
    | nil => exact absurd he hne
    | cons a as => exact ⟨rfl, rfl, rfl⟩
  · intro hne
    unfold byTimeHandler
    cases he : byTimeErrors raw with
    | nil => exact absurd he hne
    | cons a as => exact ⟨rfl, rfl, rfl⟩
  · intro hne
    unfold searchHandler
    cases he : searchErrors raw with
    | nil => exact absurd he hne
    | cons a as => exact ⟨rfl, rfl, rfl⟩

/-- A raw request with two invalid parameters at once. -/
def rawTwoBad : RawQuery := { limit := some "0", offset := some "-1" }

/-- C9 witness: `limit = 0` and `offset = -1` both fail on the List
endpoint; the one 400 response names both fields and no query runs. -/
theorem validation_before_any_query_witness :
    (listHandler rawTwoBad demoStore).status = 400 ∧
    (listHandler rawTwoBad demoStore).queriesIssued = 0 ∧
    detailsOf (listHandler rawTwoBad demoStore)
      = some ((listErrors rawTwoBad).map fieldErrorJson) :=
  (validation_before_any_query rawTwoBad demoStore).1 (by decide)

/-!
Section: C6 — the Search endpoint
-/

/-- C6 (amended): a term shorter than 3 characters is rejected with 400
and no query; a term of length ≥ 3 issues the two queries, and the result
set is exactly the first `limit` rows, time-descending, of the
transactions whose hash matches the pattern `%term%` under `ILIKE` — which
coincides with case-insensitive substring containment whenever the term
contains none of the metacharacters `%`, `_`, `\`. -/
theorem search_term_semantics :
    (∀ (raw : RawQuery) (store : List Transaction) (t : String),
      raw.term = some t → t.length < 3 →
      (searchHandler raw store).status = 400 ∧
      (searchHandler raw store).queriesIssued = 0) ∧
    (∀ (store : List Transaction) (t : String) (limit : Nat),
      3 ≤ t.length →
      (searchCore store t limit).status = 200 ∧
      (searchCore store t limit).queriesIssued = 2 ∧
      bodyRows (searchCore store t limit)
        = some ((searchServedRows store t limit).map txJson) ∧
      List.Sorted timeDesc (searchServedRows store t limit) ∧
      (searchServedRows store t limit).length ≤ limit ∧
      (noWildcards t.data = true →
        searchServedRows store t limit = searchClaimRows store t limit)) := by
  constructor
  · intro raw store t ht hlen
    have herr : searchErrors raw
        = ⟨"term", termMsg⟩ ::
            optCheck "limit" raw.limit (intOK 1 (some 100)) := by
      unfold searchErrors
      rw [ht]
      show (if 3 ≤ t.length then ([] : List FieldError)
          else [⟨"term", termMsg⟩]) ++
          optCheck "limit" raw.limit (intOK 1 (some 100)) = _
      rw [if_neg (Nat.not_le.mpr hlen)]
      rfl
    have hh : searchHandler raw store
        = validationFailure (searchErrors raw) := by
      unfold searchHandler
      rw [herr]
    rw [hh]
    exact ⟨rfl, rfl⟩
  · intro store t limit _hlen
    refine ⟨rfl, rfl, rfl, ?_, ?_, ?_⟩
    · unfold searchServedRows
      exact List.Pairwise.sublist (List.take_sublist _ _)
        (orderByTimeDesc_sorted _)
    · unfold searchServedRows
      rw [List.length_take]
      exact min_le_left _ _
    · intro hw
      unfold searchServedRows searchClaimRows
      congr 1
      congr 1
      apply List.filter_congr
      intro tx _
      have hdata : ("%" ++ t ++ "%").data = '%' :: (t.data ++ ['%']) := by
        simp [String.data_append]
      rw [hdata]
      exact likeMatch_eq_containsCI t.data hw tx.hash.data

/-- C6 witness: on a store whose single hash is `AbC111`, the term
`"bc1"` (no wildcards) is accepted and returns exactly the rows whose
hash contains it case-insensitively. -/
theorem search_term_semantics_witness :
    ((searchHandler { term := some "ab" } demoStore).status = 400 ∧
     (searchHandler { term := some "ab" } demoStore).queriesIssued = 0) ∧
    ((searchCore demoStore "bbb" 25).status = 200 ∧
     (searchCore demoStore "bbb" 25).queriesIssued = 2 ∧
     bodyRows (searchCore demoStore "bbb" 25)
        = some ((searchServedRows demoStore "bbb" 25).map txJson) ∧
     List.Sorted timeDesc (searchServedRows demoStore "bbb" 25) ∧
     (searchServedRows demoStore "bbb" 25).length ≤ 25 ∧
     (noWildcards "bbb".data = true →
       searchServedRows demoStore "bbb" 25
         = searchClaimRows demoStore "bbb" 25)) :=
  ⟨search_term_semantics.1 { term := some "ab" } demoStore "ab" rfl
      (by decide),
   search_term_semantics.2 demoStore "bbb" 25 (by decide)⟩

/-- Fixture row whose hash contains an underscore-matchable triple. -/
def txU : Transaction := ⟨"abc", 1, 100, 5, 50, 1, 250⟩

/-- C6 counterexample: the three-character term `a_c` is accepted, and the
unescaped `_` acts as a single-character wildcard in `ILIKE`: the row with
hash `abc` is returned although `a_c` is not a case-insensitive substring
of `abc` — so the result set is not always "exactly the transactions whose
hash contains the term as a case-insensitive substring". -/
theorem search_underscore_wildcard_leaks :
    3 ≤ ("a_c" : String).length ∧
    searchServedRows [txU] "a_c" 25 = [txU] ∧
    searchClaimRows [txU] "a_c" 25 = [] ∧
    containsCI "a_c".data "abc".data = false :=
  ⟨by decide, rfl, rfl, by decide⟩

/-!
Section: C7 — the by-hash point lookup
-/

/-- C7: the by-hash endpoint answers 404 (never 500, never an empty 200)
with the error body when no row carries the hash, and otherwise answers
200 whose body is the single first matching row. -/
theorem byHash_not_found_vs_found (store : List Transaction) (h : String) :
    ((store.filter fun tx => tx.hash = h) = [] →
      (byHashHandler store h).status = 404 ∧
      (byHashHandler store h).status ≠ 500 ∧
      bodyField (byHashHandler store h) "error"
        = some (Json.str "Transaction not found")) ∧
    (∀ tx rest, (store.filter fun tx => tx.hash = h) = tx :: rest →
      (byHashHandler store h).status = 200 ∧
      (byHashHandler store h).body = txJson tx) := by
  constructor
  · intro hfil
    unfold byHashHandler
    rw [hfil]
    exact ⟨rfl, by decide, rfl⟩
  · intro tx rest hfil
    unfold byHashHandler
    rw [hfil]
    exact ⟨rfl, rfl⟩

/-- C7 witness: looking up the unknown hash `deadbeef` on the demo store
gives the 404 error body; looking up `bbb222` gives the row itself. -/
theorem byHash_not_found_vs_found_witness :
    ((byHashHandler demoStore "deadbeef").status = 404 ∧
     (byHashHandler demoStore "deadbeef").status ≠ 500 ∧
     bodyField (byHashHandler demoStore "deadbeef") "error"
        = some (Json.str "Transaction not found")) ∧
    ((byHashHandler demoStore "bbb222").status = 200 ∧
     (byHashHandler demoStore "bbb222").body = txJson txB) :=
  ⟨(byHash_not_found_vs_found demoStore "deadbeef").1 rfl,
   (byHash_not_found_vs_found demoStore "bbb222").2 txB [] rfl⟩

/-!
Section: C8 — the client's error-message extraction
-/

/-- A concrete non-ok JSON response carrying a `message` field. -/
def badResp400 : HttpResponse :=
  ⟨false, 400, true, Json.obj [("message", Json.str "Validation failed")]⟩

/-- C8: at a non-ok JSON response with a `message` field, the claim says
each data method throws the extracted message; `searchTransactions` and
`getTransactionsByTime` do, but `getTransactions` and
`getTransactionsByDateRange` call the misspelled property
`this.handleResponseError` (the class defines `handleErrorResponse`), so
they throw a `TypeError` instead of the extracted message. -/
theorem error_extraction_typo :
    getTransactionsThrown badResp400
      = Thrown.typeError "this.handleResponseError is not a function" ∧
    getTransactionsByDateRangeThrown badResp400
      = Thrown.typeError "this.handleResponseError is not a function" ∧
    claimedErrorMessage badResp400 = "Validation failed" ∧
    getTransactionsThrown badResp400
      ≠ Thrown.jsError (claimedErrorMessage badResp400) ∧
    searchTransactionsThrown badResp400
      = Thrown.jsError (claimedErrorMessage badResp400) ∧
    getTransactionsByTimeThrown badResp400
      = Thrown.jsError (claimedErrorMessage badResp400) := by
  refine ⟨rfl, rfl, rfl, by decide, rfl, rfl⟩

/-!
Section: C10 — the client's `searchTransactions` ignores its offset argument
-/

/-- C10: `searchTransactions` accepts an `offset` argument but never puts
it in the URL, so two calls differing only in the offset issue the
identical request and — against any fixed server behaviour — receive the
same first page. -/
theorem searchTransactions_ignores_offset :
    (∀ (term : String) (limit o₁ o₂ : Nat),
      searchTransactionsUrl term limit o₁ = searchTransactionsUrl term limit o₂) ∧
    (∀ (server : String → Response) (term : String) (limit o₁ o₂ : Nat),
      server (searchTransactionsUrl term limit o₁)
        = server (searchTransactionsUrl term limit o₂)) :=
  ⟨fun _ _ _ _ => rfl, fun _ _ _ _ _ => rfl⟩

end BitcoinBoi
